import Mathlib

/-!
Shallow embedding of the zemu run-control layer (src/debug.c, src/debug.h).

The C module owns a process-wide run state (`zemu_debug_state`), a fixed
array of breakpoint addresses with a live count, and operates on a caller
owned `Z80` instance.  The external CPU core (`z80_run`, declared in
Z80.h, outside this repository) is modelled as an explicit function
parameter `z80run : Z80State → Nat → Z80State × Nat` returning the new
machine state and the cycles consumed; its collaborator contract
("returns cycles ≥ requested minimum") appears as a hypothesis where a
claim needs it.

The unbounded `while` loop of `zemu_debug_continue` is embedded with an
explicit fuel parameter; `none` means the loop did not terminate within
the given fuel (the C loop can genuinely diverge on a negative budget
with no breakpoint hit).
-/

namespace Zemu

/-- RunState enum from src/debug.h (RUNNING = 0, HALTED = 1, BREAK = 2,
UNDEFINED = -1). -/
inductive RunState where
  | RUNNING
  | HALTED
  | BREAK
  | UNDEFINED
deriving DecidableEq, Repr

/-- The fields of the external `Z80` instance's `state` that debug.c
reads: 16-bit special-purpose registers, and the main and alternate
register pairs.  Each pair field holds the full 16-bit value; the C
accesses its bytes through `values_uint8.index1` (high byte) and
`values_uint8.index0` (low byte). -/
structure Z80State where
  pc : Nat
  sp : Nat
  ix : Nat
  iy : Nat
  af : Nat
  bc : Nat
  de : Nat
  hl : Nat
  af_ : Nat
  bc_ : Nat
  de_ : Nat
  hl_ : Nat
deriving DecidableEq, Repr

/-- `values_uint8.index1` of a 16-bit register pair: the high byte. -/
def index1 (v : Nat) : Nat := v / 256 % 256

/-- `values_uint8.index0` of a 16-bit register pair: the low byte. -/
def index0 (v : Nat) : Nat := v % 256

/-- `ZEMU_DEBUG_MAX_BREAKPOINTS` from src/debug.h (default 256): the
size of the static `breakpoints` array. -/
def ZEMU_DEBUG_MAX_BREAKPOINTS : Nat := 256

/-- The module globals of src/debug.c: `zemu_debug_state`, plus the
`breakpoints` array together with `breakpoint_count`, modelled as the
list of the first `breakpoint_count` live entries of the array. -/
structure DebugGlobals where
  zemu_debug_state : RunState
  breakpoints : List Nat
deriving DecidableEq, Repr

/-- `breakpoint_count`: number of live entries of the breakpoints array. -/
def breakpoint_count (g : DebugGlobals) : Nat := g.breakpoints.length

/-- The scan of debug.c's `for (b = 0; b < breakpoint_count; b++)` loop
inside `zemu_debug_continue`: does the program counter match any live
breakpoint entry? -/
def breakpointMatch (bps : List Nat) (pc : Nat) : Bool :=
  bps.any (fun b => pc = b)

/-- `zemu_debug_step`: one instruction via the external core,
`z80_run(instance, 1)`.  Returns the new machine state and the cycles
consumed. -/
def zemu_debug_step (z80run : Z80State → Nat → Z80State × Nat)
    (cpu : Z80State) : Z80State × Nat :=
  z80run cpu 1

/-- The `while` loop of `zemu_debug_continue`, with explicit fuel.
Loop guard as in the C source:
`zemu_debug_state == RUNNING && (run_cycles < 0 || cycles < run_cycles)`.
The body adds the cycles of one `zemu_debug_step` and then scans the
breakpoint array against the new program counter, setting BREAK on a
match.  `none` means the fuel ran out with the guard still true. -/
def zemu_debug_continue_loop (z80run : Z80State → Nat → Z80State × Nat)
    (bps : List Nat) (run_cycles : Int) :
    Nat → RunState → Nat → Z80State → Option (Nat × RunState × Z80State)
  | 0, st, cycles, cpu =>
    if st = RunState.RUNNING ∧ (run_cycles < 0 ∨ (cycles : Int) < run_cycles) then
      none
    else
      some (cycles, st, cpu)
  | fuel + 1, st, cycles, cpu =>
    if st = RunState.RUNNING ∧ (run_cycles < 0 ∨ (cycles : Int) < run_cycles) then
      let stepRes := zemu_debug_step z80run cpu
      let cpu' := stepRes.1
      let cycles' := cycles + stepRes.2
      let st' := if breakpointMatch bps cpu'.pc then RunState.BREAK else st
      zemu_debug_continue_loop z80run bps run_cycles fuel st' cycles' cpu'
    else
      some (cycles, st, cpu)

/-- `zemu_debug_continue(instance, run_cycles)`: return 0 at once when
halted; otherwise set the state to RUNNING and run the loop.  The result
is the returned cycle count, the final module globals (the breakpoint
array is untouched by the loop) and the final machine state; `none`
means the loop did not terminate within `fuel` iterations. -/
def zemu_debug_continue (z80run : Z80State → Nat → Z80State × Nat)
    (fuel : Nat) (g : DebugGlobals) (cpu : Z80State) (run_cycles : Int) :
    Option (Nat × DebugGlobals × Z80State) :=
  if g.zemu_debug_state = RunState.HALTED then
    some (0, g, cpu)
  else
    match zemu_debug_continue_loop z80run g.breakpoints run_cycles fuel
        RunState.RUNNING 0 cpu with
    | none => none
    | some (cycles, st, cpu') => some (cycles, ⟨st, g.breakpoints⟩, cpu')

/-- `zemu_debug_halt(context, state)`: sets `zemu_debug_state` to HALTED
when `state` is true, else to RUNNING.  The `context` pointer argument of
the C function is unused and the CPU instance is neither read nor
written, so the embedding takes and returns only the module globals. -/
def zemu_debug_halt (state : Bool) (g : DebugGlobals) : DebugGlobals :=
  if state then
    { g with zemu_debug_state := RunState.HALTED }
  else
    { g with zemu_debug_state := RunState.RUNNING }

/-- `zemu_debug_halted()`. -/
def zemu_debug_halted (g : DebugGlobals) : Bool :=
  g.zemu_debug_state = RunState.HALTED

/-- `zemu_debug_break()`. -/
def zemu_debug_break (g : DebugGlobals) : Bool :=
  g.zemu_debug_state = RunState.BREAK

/-- `zemu_debug_set_breakpoint(address)`: the C body is
`breakpoints[breakpoint_count] = address; breakpoint_count++;` with no
bounds check.  The store is inside the 256-entry static array exactly
when `breakpoint_count < ZEMU_DEBUG_MAX_BREAKPOINTS`; otherwise it
writes past the end of the array, which has no defined result and is
modelled as `none`. -/
def zemu_debug_set_breakpoint (address : Nat) (g : DebugGlobals) :
    Option DebugGlobals :=
  if breakpoint_count g < ZEMU_DEBUG_MAX_BREAKPOINTS then
    some { g with breakpoints := g.breakpoints ++ [address] }
  else
    none

/-- A sequence of `zemu_debug_set_breakpoint` calls, stopping at the
first one whose array store is out of bounds. -/
def insertBreakpoints (addrs : List Nat) (g : DebugGlobals) :
    Option DebugGlobals :=
  match addrs with
  | [] => some g
  | a :: rest =>
    match zemu_debug_set_breakpoint a g with
    | none => none
    | some g' => insertBreakpoints rest g'

/-- `zemu_debug_register(instance, r)`: the 20-case switch of debug.c.
Cases 2 and 3 read `iy` and `ix` in that order, as in the source; 8-bit
halves come from `values_uint8.index1` (high) and `index0` (low). -/
def zemu_debug_register (cpu : Z80State) (r : Nat) : Nat :=
  match r with
  | 0 => cpu.pc
  | 1 => cpu.sp
  | 2 => cpu.iy
  | 3 => cpu.ix
  | 4 => index1 cpu.af
  | 5 => index0 cpu.af
  | 6 => index1 cpu.bc
  | 7 => index0 cpu.bc
  | 8 => index1 cpu.de
  | 9 => index0 cpu.de
  | 10 => index1 cpu.hl
  | 11 => index0 cpu.hl
  | 12 => index1 cpu.af_
  | 13 => index0 cpu.af_
  | 14 => index1 cpu.bc_
  | 15 => index0 cpu.bc_
  | 16 => index1 cpu.de_
  | 17 => index0 cpu.de_
  | 18 => index1 cpu.hl_
  | 19 => index0 cpu.hl_
  | _ => 0xFFFF

/-! ### Trajectory of the external core

`stepN z n cpu` is the machine state after `n` calls of
`zemu_debug_step`, and `cyclesAfter z n cpu` the cycles accumulated by
those `n` steps. -/

/-- Machine state after one `zemu_debug_step`. -/
def step1 (z : Z80State → Nat → Z80State × Nat) (cpu : Z80State) : Z80State :=
  (zemu_debug_step z cpu).1

/-- Cycles consumed by one `zemu_debug_step`. -/
def cost1 (z : Z80State → Nat → Z80State × Nat) (cpu : Z80State) : Nat :=
  (zemu_debug_step z cpu).2

/-- Machine state after `n` steps. -/
def stepN (z : Z80State → Nat → Z80State × Nat) : Nat → Z80State → Z80State
  | 0, cpu => cpu
  | n + 1, cpu => step1 z (stepN z n cpu)

/-- Cycles accumulated over the first `n` steps. -/
def cyclesAfter (z : Z80State → Nat → Z80State × Nat) : Nat → Z80State → Nat
  | 0, _ => 0
  | n + 1, cpu => cyclesAfter z n cpu + cost1 z (stepN z n cpu)

/-- Concrete machine-state fixture with pairwise distinct register
contents, for exercising the register switch. -/
def fixtureCPU : Z80State :=
  { pc := 0x1234, sp := 0x2345, ix := 0x3456, iy := 0x4567,
    af := 0x0102, bc := 0x0304, de := 0x0506, hl := 0x0708,
    af_ := 0x090A, bc_ := 0x0B0C, de_ := 0x0D0E, hl_ := 0x0F10 }

/-- Machine state with every register zero. -/
def demoCPU : Z80State :=
  { pc := 0, sp := 0, ix := 0, iy := 0, af := 0, bc := 0, de := 0, hl := 0,
    af_ := 0, bc_ := 0, de_ := 0, hl_ := 0 }

/-- A concrete external core for witnesses: each instruction advances
the program counter by one and costs 4 cycles. -/
def demoRun (s : Z80State) (_minCycles : Nat) : Z80State × Nat :=
  ({ s with pc := s.pc + 1 }, 4)

/-! ### Helper lemmas about the loop and the trajectory -/

/-- Unfolding `stepN` from the front: `n + 1` steps are one step
followed by `n` steps. -/
lemma stepN_succ_left (z : Z80State → Nat → Z80State × Nat) (n : Nat)
    (cpu : Z80State) : stepN z (n + 1) cpu = stepN z n (step1 z cpu) := by
  induction n with
  | zero => rfl
  | succ n ih =>
    show step1 z (stepN z (n + 1) cpu) = step1 z (stepN z n (step1 z cpu))
    rw [ih]

/-- Unfolding `cyclesAfter` from the front. -/
lemma cyclesAfter_succ_left (z : Z80State → Nat → Z80State × Nat) (n : Nat)
    (cpu : Z80State) :
    cyclesAfter z (n + 1) cpu = cost1 z cpu + cyclesAfter z n (step1 z cpu) := by
  induction n with
  | zero => simp [cyclesAfter, stepN]
  | succ n ih =>
    show cyclesAfter z (n + 1) cpu + cost1 z (stepN z (n + 1) cpu) = _
    rw [ih, stepN_succ_left]
    show _ = cost1 z cpu +
      (cyclesAfter z n (step1 z cpu) + cost1 z (stepN z n (step1 z cpu)))
    omega

/-- With a non-RUNNING state the loop guard is false and the loop
returns immediately, whatever the fuel. -/
lemma loop_not_running (z : Z80State → Nat → Z80State × Nat)
    (bps : List Nat) (rc : Int) (fuel cycles : Nat) (cpu : Z80State)
    (st : RunState) (h : st ≠ RunState.RUNNING) :
    zemu_debug_continue_loop z bps rc fuel st cycles cpu =
      some (cycles, st, cpu) := by
  cases fuel <;> simp [zemu_debug_continue_loop, h]

/-- One iteration of the loop from a RUNNING state whose budget still
allows stepping. -/
lemma loop_succ_running (z : Z80State → Nat → Z80State × Nat)
    (bps : List Nat) (rc : Int) (fuel cyc : Nat) (cpu : Z80State)
    (hbudget : rc < 0 ∨ (cyc : Int) < rc) :
    zemu_debug_continue_loop z bps rc (fuel + 1) RunState.RUNNING cyc cpu =
      zemu_debug_continue_loop z bps rc fuel
        (if breakpointMatch bps (step1 z cpu).pc then RunState.BREAK
          else RunState.RUNNING)
        (cyc + cost1 z cpu) (step1 z cpu) := by
  simp only [zemu_debug_continue_loop, true_and]
  rw [if_pos hbudget]
  rfl

/-- Membership in the breakpoint list makes the scan report a match. -/
lemma breakpointMatch_of_mem {bps : List Nat} {pc : Nat} (h : pc ∈ bps) :
    breakpointMatch bps pc = true := by
  simp only [breakpointMatch, List.any_eq_true, decide_eq_true_eq]
  exact ⟨pc, h, rfl⟩

/-- If the trajectory misses every breakpoint for the first `k - 1`
steps, hits one at step `k`, and the budget allows each of the `k`
steps, then the loop runs exactly `k` steps and stops in BREAK. -/
lemma loop_break_at (z : Z80State → Nat → Z80State × Nat)
    (bps : List Nat) (rc : Int) :
    ∀ (k fuel cyc : Nat) (cpu : Z80State), 1 ≤ k → k ≤ fuel →
      (∀ j, 1 ≤ j → j < k → breakpointMatch bps (stepN z j cpu).pc = false) →
      breakpointMatch bps (stepN z k cpu).pc = true →
      (∀ j, j < k → rc < 0 ∨ ((cyc + cyclesAfter z j cpu : Nat) : Int) < rc) →
      zemu_debug_continue_loop z bps rc fuel RunState.RUNNING cyc cpu =
        some (cyc + cyclesAfter z k cpu, RunState.BREAK, stepN z k cpu) := by
  intro k
  induction k with
  | zero => intro fuel cyc cpu h1; exact absurd h1 (by omega)
  | succ k ih =>
    intro fuel cyc cpu _ hfuel hfirst hhit hbudget
    obtain ⟨fuel', rfl⟩ : ∃ f, fuel = f + 1 := ⟨fuel - 1, by omega⟩
    have hb0 : rc < 0 ∨ ((cyc : Nat) : Int) < rc := by
      have h := hbudget 0 (by omega)
      simpa [cyclesAfter] using h
    rw [loop_succ_running z bps rc fuel' cyc cpu hb0]
    rcases Nat.eq_zero_or_pos k with hk0 | hkpos
    · subst hk0
      have hhit1 : breakpointMatch bps (step1 z cpu).pc = true := by
        simpa [stepN] using hhit
      rw [hhit1]
      simp only [if_true]
      rw [loop_not_running z bps rc fuel' _ _ RunState.BREAK (by decide)]
      simp [cyclesAfter, stepN]
    · have hmiss : breakpointMatch bps (step1 z cpu).pc = false := by
        have h := hfirst 1 (by omega) (by omega)
        simpa [stepN] using h
      rw [hmiss]
      simp only [Bool.false_eq_true, if_false]
      have hrec := ih fuel' (cyc + cost1 z cpu) (step1 z cpu) hkpos (by omega)
        (fun j hj1 hjk => by
          have h := hfirst (j + 1) (by omega) (by omega)
          rwa [stepN_succ_left] at h)
        (by
          have h := hhit
          rwa [stepN_succ_left] at h)
        (fun j hj => by
          have h := hbudget (j + 1) (by omega)
          rw [cyclesAfter_succ_left] at h
          rcases h with h | h
          · exact Or.inl h
          · right; omega)
      rw [hrec, stepN_succ_left, cyclesAfter_succ_left, Nat.add_assoc]

/-- With a negative budget, whenever the loop terminates from a RUNNING
state it terminates in BREAK: the budget never ends it. -/
lemma loop_negative_budget_break (z : Z80State → Nat → Z80State × Nat)
    (bps : List Nat) (rc : Int) (hrc : rc < 0) :
    ∀ (fuel cyc : Nat) (cpu : Z80State) (C : Nat) (st' : RunState)
      (cpu' : Z80State),
      zemu_debug_continue_loop z bps rc fuel RunState.RUNNING cyc cpu =
        some (C, st', cpu') →
      st' = RunState.BREAK := by
  intro fuel
  induction fuel with
  | zero =>
    intro cyc cpu C st' cpu' h
    simp only [zemu_debug_continue_loop, true_and] at h
    rw [if_pos (Or.inl hrc)] at h
    exact absurd h (by simp)
  | succ fuel ih =>
    intro cyc cpu C st' cpu' h
    rw [loop_succ_running z bps rc fuel cyc cpu (Or.inl hrc)] at h
    by_cases hbp : breakpointMatch bps (step1 z cpu).pc = true
    · rw [hbp] at h
      simp only [if_true] at h
      rw [loop_not_running z bps rc fuel _ _ RunState.BREAK (by decide)] at h
      simp only [Option.some.injEq, Prod.mk.injEq] at h
      exact h.2.1.symm
    · rw [if_neg hbp] at h
      exact ih _ _ _ _ _ h

/-- Once the accumulated cycles reach a non-negative budget, the loop
stops at that boundary, whatever the fuel. -/
lemma loop_budget_exhausted (z : Z80State → Nat → Z80State × Nat)
    (bps : List Nat) (N : Nat) (fuel cyc : Nat) (cpu : Z80State)
    (hge : N ≤ cyc) :
    zemu_debug_continue_loop z bps (N : Int) fuel RunState.RUNNING cyc cpu =
      some (cyc, RunState.RUNNING, cpu) := by
  have hg : ¬((N : Int) < 0 ∨ (cyc : Int) < (N : Int)) := by
    rintro (h | h) <;> omega
  cases fuel <;> (simp only [zemu_debug_continue_loop, true_and]; rw [if_neg hg])

/-- With a non-negative budget `N`, if the loop terminates still in
RUNNING (i.e. stopped by the budget, not a breakpoint) then the returned
cycle count `C` satisfies `N ≤ C < N + maxc` for any per-instruction
cycle bound `maxc`, and `C` is the accumulated-cycle value at the first
step boundary reaching `N`. -/
lemma loop_budget_stop (z : Z80State → Nat → Z80State × Nat)
    (bps : List Nat) (N maxc : Nat)
    (hmax : ∀ s, cost1 z s ≤ maxc) :
    ∀ (fuel cyc : Nat) (cpu : Z80State) (C : Nat) (cpu' : Z80State),
      cyc < N + maxc →
      zemu_debug_continue_loop z bps (N : Int) fuel RunState.RUNNING cyc cpu =
        some (C, RunState.RUNNING, cpu') →
      (N ≤ C ∧ C < N + maxc) ∧
      ∃ n, C = cyc + cyclesAfter z n cpu ∧ cpu' = stepN z n cpu ∧
        ∀ j, j < n → cyc + cyclesAfter z j cpu < N := by
  intro fuel
  induction fuel with
  | zero =>
    intro cyc cpu C cpu' hcyc h
    by_cases hlt : (cyc : Int) < (N : Int)
    · simp only [zemu_debug_continue_loop, true_and] at h
      rw [if_pos (Or.inr hlt)] at h
      exact absurd h (by simp)
    · have hge : N ≤ cyc := by omega
      rw [loop_budget_exhausted z bps N 0 cyc cpu hge] at h
      simp only [Option.some.injEq, Prod.mk.injEq] at h
      obtain ⟨hC, -, hcpu⟩ := h
      refine ⟨⟨by omega, by omega⟩, 0, by simpa [cyclesAfter] using hC.symm,
        ?_, fun j hj => by omega⟩
      simp only [stepN]
      exact hcpu.symm
  | succ fuel ih =>
    intro cyc cpu C cpu' hcyc h
    by_cases hlt : (cyc : Int) < (N : Int)
    · rw [loop_succ_running z bps (N : Int) fuel cyc cpu (Or.inr hlt)] at h
      by_cases hbp : breakpointMatch bps (step1 z cpu).pc = true
      · rw [hbp] at h
        simp only [if_true] at h
        rw [loop_not_running z bps (N : Int) fuel _ _ RunState.BREAK
          (by decide)] at h
        simp at h
      · rw [if_neg hbp] at h
        have hcyc' : cyc + cost1 z cpu < N + maxc := by
          have h1 := hmax cpu
          omega
        obtain ⟨⟨hN, hub⟩, n, hCn, hcpn, hfst⟩ :=
          ih (cyc + cost1 z cpu) (step1 z cpu) C cpu' hcyc' h
        refine ⟨⟨hN, hub⟩, n + 1, ?_, ?_, ?_⟩
        · rw [cyclesAfter_succ_left]
          omega
        · rw [stepN_succ_left]
          exact hcpn
        · intro j hj
          match j with
          | 0 => simpa [cyclesAfter] using (by omega : cyc < N)
          | j + 1 =>
            rw [cyclesAfter_succ_left]
            have h2 := hfst j (by omega)
            omega
    · have hge : N ≤ cyc := by omega
      rw [loop_budget_exhausted z bps N (fuel + 1) cyc cpu hge] at h
      simp only [Option.some.injEq, Prod.mk.injEq] at h
      obtain ⟨hC, -, hcpu⟩ := h
      refine ⟨⟨by omega, by omega⟩, 0, by simpa [cyclesAfter] using hC.symm,
        ?_, fun j hj => by omega⟩
      simp only [stepN]
      exact hcpu.symm

/-- Successful breakpoint insertions append, as long as every store of
the sequence stays inside the array. -/
lemma insertBreakpoints_ok : ∀ (l : List Nat) (g : DebugGlobals),
    breakpoint_count g + l.length ≤ ZEMU_DEBUG_MAX_BREAKPOINTS →
    insertBreakpoints l g =
      some { g with breakpoints := g.breakpoints ++ l } := by
  intro l
  induction l with
  | nil => intro g h; simp [insertBreakpoints]
  | cons a rest ih =>
    intro g h
    have hlt : breakpoint_count g < ZEMU_DEBUG_MAX_BREAKPOINTS := by
      simp only [List.length_cons] at h
      omega
    simp only [insertBreakpoints, zemu_debug_set_breakpoint, if_pos hlt]
    rw [ih { g with breakpoints := g.breakpoints ++ [a] }
      (by simp only [breakpoint_count, List.length_append, List.length_cons,
        List.length_nil] at h ⊢; omega)]
    simp

/-! ### Claims -/

/-- C2.  If the run state is `HALTED`, `zemu_debug_continue` returns 0,
performs zero steps (the machine state comes back unchanged), and leaves
the run state `HALTED`, for every cycle budget of any sign or magnitude
and every fuel. -/
theorem zemu_halt_precedence (z : Z80State → Nat → Z80State × Nat)
    (fuel : Nat) (bps : List Nat) (cpu : Z80State) (run_cycles : Int) :
    zemu_debug_continue z fuel ⟨RunState.HALTED, bps⟩ cpu run_cycles =
      some (0, ⟨RunState.HALTED, bps⟩, cpu) := by
  simp [zemu_debug_continue]

/-- C9.  `zemu_debug_halt` sets the run state to `HALTED` when requested
and to `RUNNING` otherwise, from every prior run state, and changes
nothing else: the breakpoint list and its count are unchanged (the CPU
instance is not even an input or output of the operation). -/
theorem zemu_halt_sets_state_only (b : Bool) (g : DebugGlobals) :
    (zemu_debug_halt b g).zemu_debug_state =
      (if b then RunState.HALTED else RunState.RUNNING) ∧
    (zemu_debug_halt b g).breakpoints = g.breakpoints ∧
    breakpoint_count (zemu_debug_halt b g) = breakpoint_count g := by
  cases b <;> simp [zemu_debug_halt, breakpoint_count]

/-- C10.  From any non-halted run state, `zemu_debug_continue` with a
zero cycle budget performs zero steps, leaves the machine state
unchanged and returns 0, yet still sets the run state to `RUNNING` — in
particular a prior `BREAK` state is cleared without executing any
instruction. -/
theorem zemu_continue_zero_budget (z : Z80State → Nat → Z80State × Nat)
    (fuel : Nat) (g : DebugGlobals) (cpu : Z80State)
    (hst : g.zemu_debug_state ≠ RunState.HALTED) :
    zemu_debug_continue z fuel g cpu 0 =
      some (0, ⟨RunState.RUNNING, g.breakpoints⟩, cpu) := by
  unfold zemu_debug_continue
  rw [if_neg hst]
  cases fuel <;> simp [zemu_debug_continue_loop]

/-- Witness for C10: a prior `BREAK` state with zero budget is cleared
to `RUNNING` with zero cycles and an unchanged machine state. -/
theorem zemu_continue_zero_budget_witness :
    zemu_debug_continue demoRun 5 ⟨RunState.BREAK, [7]⟩ demoCPU 0 =
      some (0, ⟨RunState.RUNNING, [7]⟩, demoCPU) :=
  zemu_continue_zero_budget demoRun 5 ⟨RunState.BREAK, [7]⟩ demoCPU (by decide)

/-- C7.  Under the collaborator contract that `z80_run` returns at least
the requested minimum number of cycles, `zemu_debug_step` returns at
least 1 for every machine state. -/
theorem zemu_step_at_least_one_cycle (z : Z80State → Nat → Z80State × Nat)
    (hmin : ∀ s n, n ≤ (z s n).2) (cpu : Z80State) :
    1 ≤ (zemu_debug_step z cpu).2 :=
  hmin cpu 1

/-- Witness for C7: a concrete conforming core. -/
theorem zemu_step_at_least_one_cycle_witness :
    1 ≤ (zemu_debug_step (fun s n => (s, n)) demoCPU).2 :=
  zemu_step_at_least_one_cycle (fun s n => (s, n))
    (fun _ n => Nat.le_refl n) demoCPU

/-- C8.  For every register identifier outside the 20 recognized cases,
`zemu_debug_register` returns the sentinel `0xFFFF`, for every machine
state. -/
theorem zemu_unknown_register_sentinel (cpu : Z80State) (r : Nat)
    (h : 20 ≤ r) : zemu_debug_register cpu r = 0xFFFF := by
  obtain ⟨s, rfl⟩ : ∃ s, r = s + 20 := ⟨r - 20, by omega⟩
  rfl

/-- Witness for C8: identifier 20 on a populated fixture. -/
theorem zemu_unknown_register_sentinel_witness :
    zemu_debug_register fixtureCPU 20 = 0xFFFF :=
  zemu_unknown_register_sentinel fixtureCPU 20 (by decide)

/-- Counterexample for C5 as stated: the claim maps id 2 to IX and id 3
to IY, but on a fixture with IX = 0x3456 and IY = 0x4567 the code
returns IY for id 2 and IX for id 3. -/
theorem zemu_register_id2_counterexample :
    zemu_debug_register fixtureCPU 2 ≠ fixtureCPU.ix ∧
    zemu_debug_register fixtureCPU 3 ≠ fixtureCPU.iy ∧
    zemu_debug_register fixtureCPU 2 = fixtureCPU.iy ∧
    zemu_debug_register fixtureCPU 3 = fixtureCPU.ix := by
  decide

/-- C5 (amended).  For each of the 20 register identifiers,
`zemu_debug_register` returns exactly the documented CPU-state field,
with ids 0–3 selecting the 16-bit registers in the order PC, SP, IY, IX;
ids 4–11 the high/low halves of the main AF/BC/DE/HL pairs; ids 12–19
the same halves of the alternate bank; halves zero-extended.  Stated for
every machine state, and checked on a concrete populated fixture with
pairwise distinct register contents. -/
theorem zemu_register_mapping :
    (∀ cpu : Z80State,
      zemu_debug_register cpu 0 = cpu.pc ∧
      zemu_debug_register cpu 1 = cpu.sp ∧
      zemu_debug_register cpu 2 = cpu.iy ∧
      zemu_debug_register cpu 3 = cpu.ix ∧
      zemu_debug_register cpu 4 = index1 cpu.af ∧
      zemu_debug_register cpu 5 = index0 cpu.af ∧
      zemu_debug_register cpu 6 = index1 cpu.bc ∧
      zemu_debug_register cpu 7 = index0 cpu.bc ∧
      zemu_debug_register cpu 8 = index1 cpu.de ∧
      zemu_debug_register cpu 9 = index0 cpu.de ∧
      zemu_debug_register cpu 10 = index1 cpu.hl ∧
      zemu_debug_register cpu 11 = index0 cpu.hl ∧
      zemu_debug_register cpu 12 = index1 cpu.af_ ∧
      zemu_debug_register cpu 13 = index0 cpu.af_ ∧
      zemu_debug_register cpu 14 = index1 cpu.bc_ ∧
      zemu_debug_register cpu 15 = index0 cpu.bc_ ∧
      zemu_debug_register cpu 16 = index1 cpu.de_ ∧
      zemu_debug_register cpu 17 = index0 cpu.de_ ∧
      zemu_debug_register cpu 18 = index1 cpu.hl_ ∧
      zemu_debug_register cpu 19 = index0 cpu.hl_) ∧
    (zemu_debug_register fixtureCPU 0 = 0x1234 ∧
      zemu_debug_register fixtureCPU 1 = 0x2345 ∧
      zemu_debug_register fixtureCPU 2 = 0x4567 ∧
      zemu_debug_register fixtureCPU 3 = 0x3456 ∧
      zemu_debug_register fixtureCPU 4 = 0x01 ∧
      zemu_debug_register fixtureCPU 5 = 0x02 ∧
      zemu_debug_register fixtureCPU 6 = 0x03 ∧
      zemu_debug_register fixtureCPU 7 = 0x04 ∧
      zemu_debug_register fixtureCPU 8 = 0x05 ∧
      zemu_debug_register fixtureCPU 9 = 0x06 ∧
      zemu_debug_register fixtureCPU 10 = 0x07 ∧
      zemu_debug_register fixtureCPU 11 = 0x08 ∧
      zemu_debug_register fixtureCPU 12 = 0x09 ∧
      zemu_debug_register fixtureCPU 13 = 0x0A ∧
      zemu_debug_register fixtureCPU 14 = 0x0B ∧
      zemu_debug_register fixtureCPU 15 = 0x0C ∧
      zemu_debug_register fixtureCPU 16 = 0x0D ∧
      zemu_debug_register fixtureCPU 17 = 0x0E ∧
      zemu_debug_register fixtureCPU 18 = 0x0F ∧
      zemu_debug_register fixtureCPU 19 = 0x10) := by
  exact ⟨fun cpu =>
    ⟨rfl, rfl, rfl, rfl, rfl, rfl, rfl, rfl, rfl, rfl, rfl, rfl, rfl, rfl,
      rfl, rfl, rfl, rfl, rfl, rfl⟩, by decide⟩

/-- C1.  With a breakpoint set containing address `X`, a non-halted
starting state, a trajectory whose program counter first matches a
breakpoint after step `k` (landing on `X`), and a budget that allows
each of those `k` steps, `zemu_debug_continue` stops in `BREAK` after
exactly `k` steps, returning the cycles of those `k` steps and the
machine state after them; `zemu_debug_break()` is then true and
`zemu_debug_halted()` false.  The breakpoint scan runs only after a
step, so the hypotheses say nothing about the initial program counter:
a breakpoint already sitting at the starting PC has not fired. -/
theorem zemu_breakpoint_firing (z : Z80State → Nat → Z80State × Nat)
    (fuel k : Nat) (g : DebugGlobals) (cpu : Z80State) (rc : Int) (X : Nat)
    (hst : g.zemu_debug_state ≠ RunState.HALTED)
    (hk : 1 ≤ k) (hfuel : k ≤ fuel)
    (hX : X ∈ g.breakpoints)
    (hreach : (stepN z k cpu).pc = X)
    (hfirst : ∀ j, 1 ≤ j → j < k →
      breakpointMatch g.breakpoints (stepN z j cpu).pc = false)
    (hbudget : ∀ j, j < k → rc < 0 ∨ (cyclesAfter z j cpu : Int) < rc) :
    zemu_debug_continue z fuel g cpu rc =
      some (cyclesAfter z k cpu, ⟨RunState.BREAK, g.breakpoints⟩,
        stepN z k cpu) ∧
    zemu_debug_break ⟨RunState.BREAK, g.breakpoints⟩ = true ∧
    zemu_debug_halted ⟨RunState.BREAK, g.breakpoints⟩ = false := by
  refine ⟨?_, rfl, rfl⟩
  unfold zemu_debug_continue
  rw [if_neg hst]
  have hhit : breakpointMatch g.breakpoints (stepN z k cpu).pc = true := by
    rw [hreach]
    exact breakpointMatch_of_mem hX
  have hloop := loop_break_at z g.breakpoints rc k fuel 0 cpu hk hfuel hfirst
    hhit (fun j hj => by simpa using hbudget j hj)
  rw [hloop]
  simp

/-- Witness for C1: breakpoints at 0 and 2, starting PC 0 (the
breakpoint at the current PC does not fire), core advancing PC by one at
4 cycles each: `continue` with an unbounded budget stops after exactly 2
steps with 8 cycles in state BREAK. -/
theorem zemu_breakpoint_firing_witness :
    zemu_debug_continue demoRun 10 ⟨RunState.RUNNING, [0, 2]⟩ demoCPU (-1) =
      some (cyclesAfter demoRun 2 demoCPU, ⟨RunState.BREAK, [0, 2]⟩,
        stepN demoRun 2 demoCPU) ∧
    zemu_debug_break ⟨RunState.BREAK, [0, 2]⟩ = true ∧
    zemu_debug_halted ⟨RunState.BREAK, [0, 2]⟩ = false :=
  zemu_breakpoint_firing demoRun 10 2 ⟨RunState.RUNNING, [0, 2]⟩ demoCPU
    (-1) 2 (by decide) (by decide) (by decide) (by decide) (by decide)
    (fun j h1 h2 => by
      have hj : j = 1 := by omega
      subst hj
      decide)
    (fun j hj => Or.inl (by decide))

/-- C6.  With a negative cycle budget, the budget never stops
`zemu_debug_continue`: from any non-halted starting state, whenever the
call returns at all, the final run state is BREAK — only a breakpoint
match ends the loop. -/
theorem zemu_unbounded_budget (z : Z80State → Nat → Z80State × Nat)
    (fuel : Nat) (g : DebugGlobals) (cpu : Z80State) (rc : Int)
    (C : Nat) (g' : DebugGlobals) (cpu' : Z80State)
    (hst : g.zemu_debug_state ≠ RunState.HALTED) (hrc : rc < 0)
    (hres : zemu_debug_continue z fuel g cpu rc = some (C, g', cpu')) :
    g'.zemu_debug_state = RunState.BREAK := by
  unfold zemu_debug_continue at hres
  rw [if_neg hst] at hres
  rcases hloop : zemu_debug_continue_loop z g.breakpoints rc fuel
      RunState.RUNNING 0 cpu with _ | ⟨⟨cy, st, cp⟩⟩
  · rw [hloop] at hres
    exact absurd hres (by simp)
  · rw [hloop] at hres
    simp only [Option.some.injEq, Prod.mk.injEq] at hres
    have hb := loop_negative_budget_break z g.breakpoints rc hrc fuel 0 cpu
      cy st cp hloop
    rw [← hres.2.1]
    exact hb

/-- Witness for C6: with budget `-1` the returned run state is BREAK. -/
theorem zemu_unbounded_budget_witness :
    (⟨RunState.BREAK, [2]⟩ : DebugGlobals).zemu_debug_state =
      RunState.BREAK :=
  zemu_unbounded_budget demoRun 10 ⟨RunState.RUNNING, [2]⟩ demoCPU (-1) 8
    ⟨RunState.BREAK, [2]⟩ (stepN demoRun 2 demoCPU) (by decide) (by decide)
    (by decide)

/-- C4.  With a non-negative budget `N`, a core that charges at least 1
and at most `maxc` cycles per instruction, and a run that the budget
(not a breakpoint or halt) stopped — the final run state is RUNNING —
the cycle count `C` returned by `zemu_debug_continue` satisfies
`N ≤ C < N + maxc`, and the loop stopped at the first step boundary
where the accumulated cycles reached `N`: `C` is the accumulated count
after some `n` steps and every earlier boundary was still below `N`. -/
theorem zemu_cycle_budget_monotonicity (z : Z80State → Nat → Z80State × Nat)
    (fuel : Nat) (g : DebugGlobals) (cpu : Z80State) (N maxc : Nat)
    (C : Nat) (g' : DebugGlobals) (cpu' : Z80State)
    (hmin : ∀ s, 1 ≤ cost1 z s) (hmax : ∀ s, cost1 z s ≤ maxc)
    (hres : zemu_debug_continue z fuel g cpu (N : Int) = some (C, g', cpu'))
    (hrun : g'.zemu_debug_state = RunState.RUNNING) :
    (N ≤ C ∧ C < N + maxc) ∧
    ∃ n, C = cyclesAfter z n cpu ∧ cpu' = stepN z n cpu ∧
      ∀ j, j < n → cyclesAfter z j cpu < N := by
  unfold zemu_debug_continue at hres
  by_cases hst : g.zemu_debug_state = RunState.HALTED
  · rw [if_pos hst] at hres
    simp only [Option.some.injEq, Prod.mk.injEq] at hres
    rw [← hres.2.1] at hrun
    rw [hst] at hrun
    exact absurd hrun (by decide)
  · rw [if_neg hst] at hres
    rcases hloop : zemu_debug_continue_loop z g.breakpoints (N : Int) fuel
        RunState.RUNNING 0 cpu with _ | ⟨⟨cy, st, cp⟩⟩
    · rw [hloop] at hres
      exact absurd hres (by simp)
    · rw [hloop] at hres
      simp only [Option.some.injEq, Prod.mk.injEq] at hres
      obtain ⟨hcy, hg, hcp⟩ := hres
      rw [← hg] at hrun
      have hst' : st = RunState.RUNNING := hrun
      subst hst'
      have hmaxc1 : 1 ≤ maxc := le_trans (hmin demoCPU) (hmax demoCPU)
      obtain ⟨⟨hN, hub⟩, n, hCn, hcpn, hfst⟩ :=
        loop_budget_stop z g.breakpoints N maxc hmax fuel 0 cpu cy cp
          (by omega) hloop
      subst hcy
      subst hcp
      exact ⟨⟨hN, hub⟩, n, by simpa using hCn, hcpn,
        fun j hj => by simpa using hfst j hj⟩

/-- Witness for C4: budget 10 with a 4-cycle core stops at 12 cycles,
between 10 and 10 + 4. -/
theorem zemu_cycle_budget_monotonicity_witness :
    (10 : Nat) ≤ 12 ∧ (12 : Nat) < 10 + 4 :=
  (zemu_cycle_budget_monotonicity demoRun 10 ⟨RunState.RUNNING, []⟩ demoCPU
    10 4 12 ⟨RunState.RUNNING, []⟩ (stepN demoRun 3 demoCPU)
    (fun s => by simp [cost1, zemu_debug_step, demoRun])
    (fun s => by simp [cost1, zemu_debug_step, demoRun])
    (by decide) rfl).1

/-- C3.  The first 256 breakpoint insertions from an empty registry all
succeed, the resulting registry holds exactly the inserted addresses so
each is found by the breakpoint scan — but the 257th call stores past
the end of the 256-entry array: there is no defined result and no
`CapacityExceeded` error is ever reported, contrary to the claim. -/
theorem zemu_breakpoint_capacity_overflow :
    insertBreakpoints (List.range 256) ⟨RunState.RUNNING, []⟩ =
      some ⟨RunState.RUNNING, List.range 256⟩ ∧
    (List.range 256).all
      (fun a => breakpointMatch (List.range 256) a) = true ∧
    zemu_debug_set_breakpoint 999 ⟨RunState.RUNNING, List.range 256⟩ =
      none := by
  refine ⟨?_, ?_, ?_⟩
  · have h := insertBreakpoints_ok (List.range 256) ⟨RunState.RUNNING, []⟩
      (by simp [breakpoint_count, ZEMU_DEBUG_MAX_BREAKPOINTS])
    simpa using h
  · rw [List.all_eq_true]
    intro a ha
    exact breakpointMatch_of_mem ha
  · simp [zemu_debug_set_breakpoint, breakpoint_count,
      ZEMU_DEBUG_MAX_BREAKPOINTS]

end Zemu
